import Mathlib

/-!
Verification of the PocketOption async trading client.

This file gives a shallow embedding of the core behaviours of the client:
the order-tracking correlator of `AsyncPocketOptionClient` (`client.py`),
the candle-request correlator, `get_balance`, the resilience layer of
`monitoring.py` (`CircuitBreaker`, `RetryPolicy`, `ErrorMonitor`), the
reconnection monitor of `connection_keep_alive.py`, and the candle parsers
together with the `Candle` pydantic model (`models.py`).

Python floats are embedded as rationals (the verified claims only compare
and order them), timestamps as natural numbers, and Python dicts keyed by
strings as functions `String → Option _`.  Cooperative asynchrony is made
explicit: handlers that run between the polls of a waiting coroutine are
modelled as an environment function from poll index to the shared state.
-/

namespace PocketOption

/-- Order direction (models.py, `OrderDirection`). -/
inductive OrderDirection
  | call
  | put
  deriving DecidableEq, Repr

/-- Order status (models.py, `OrderStatus`). -/
inductive OrderStatus
  | pending
  | active
  | closed
  | cancelled
  | win
  | lose
  deriving DecidableEq, Repr

/-- Order request (models.py, `Order`): parameters of a placed order.
Timestamps and durations are in seconds, amounts are rationals. -/
structure Order where
  asset : String
  amount : ℚ
  direction : OrderDirection
  duration : ℕ
  request_id : String
  deriving DecidableEq, Repr

/-- Order execution result (models.py, `OrderResult`). -/
structure OrderResult where
  order_id : String
  asset : String
  amount : ℚ
  direction : OrderDirection
  duration : ℕ
  status : OrderStatus
  placed_at : ℕ
  expires_at : ℕ
  profit : Option ℚ := none
  payout : Option ℚ := none
  error_message : Option String := none
  deriving DecidableEq, Repr

/-- The two order dictionaries of `AsyncPocketOptionClient`:
`_active_orders` and `_order_results` (client.py), each a dict keyed by
the order/request id. -/
structure OrderTracking where
  active : String → Option OrderResult
  completed : String → Option OrderResult

/-- The client state with no tracked orders. -/
def OrderTracking.empty : OrderTracking :=
  { active := fun _ => none, completed := fun _ => none }

/-- Dict assignment `self._active_orders[id] = r` (client.py). -/
def OrderTracking.insertActive (s : OrderTracking) (id : String) (r : OrderResult) :
    OrderTracking :=
  { active := fun k => if k = id then some r else s.active k
    completed := s.completed }

/-- `del self._active_orders[id]` followed by
`self._order_results[id] = r` (client.py, `_on_json_data` deals branch). -/
def OrderTracking.settle (s : OrderTracking) (id : String) (r : OrderResult) :
    OrderTracking :=
  { active := fun k => if k = id then none else s.active k
    completed := fun k => if k = id then some r else s.completed k }

/-- Payload of a detailed-order JSON push (client.py, `_on_json_data`,
branch `"requestId" in data and "asset" in data and "amount" in data`). -/
structure JsonOrderData where
  requestId : String
  asset : String
  amount : ℚ
  command : ℕ
  time : ℕ
  profit : Option ℚ
  payout : Option ℚ
  deriving DecidableEq, Repr

/-- One entry of the `deals` list of a settlement push
(client.py, `_on_json_data`, branch `"deals" in data`). -/
structure Deal where
  id : String
  profit : ℚ
  payout : Option ℚ
  deriving DecidableEq, Repr

/-- The `OrderResult` built for a fresh order seen in a JSON push
(client.py, `_on_json_data`): status ACTIVE, expiry `now + time`. -/
def jsonOrderResult (now : ℕ) (d : JsonOrderData) : OrderResult :=
  { order_id := d.requestId
    asset := d.asset
    amount := d.amount
    direction := if d.command = 0 then OrderDirection.call else OrderDirection.put
    duration := d.time
    status := OrderStatus.active
    placed_at := now
    expires_at := now + d.time
    profit := d.profit
    payout := d.payout }

/-- Status chosen for a settled deal (client.py, `_on_json_data`):
`profit > 0` ⇒ WIN, `profit < 0` ⇒ LOSE, zero profit defaults to LOSE. -/
def dealStatus (profit : ℚ) : OrderStatus :=
  if 0 < profit then OrderStatus.win
  else if profit < 0 then OrderStatus.lose
  else OrderStatus.lose

/-- The completed `OrderResult` built from the active order and a deal
(client.py, `_on_json_data` deals branch): identification fields are
copied, status comes from the profit, `error_message` is left at its
default `None`. -/
def settleResult (ao : OrderResult) (profit : ℚ) (payout : Option ℚ) : OrderResult :=
  { order_id := ao.order_id
    asset := ao.asset
    amount := ao.amount
    direction := ao.direction
    duration := ao.duration
    status := dealStatus profit
    placed_at := ao.placed_at
    expires_at := ao.expires_at
    profit := some profit
    payout := payout
    error_message := none }

/-- Handling of one deal of a settlement push (client.py, `_on_json_data`):
a deal whose id is in the active set moves the order to the completed set;
other deals are ignored. -/
def onDeal (s : OrderTracking) (d : Deal) : OrderTracking :=
  match s.active d.id with
  | some ao => s.settle d.id (settleResult ao d.profit d.payout)
  | none => s

/-- A JSON data push handled by `_on_json_data` (client.py) that touches
the order dictionaries: either a detailed new-order payload or a
settlement payload with a list of deals.  (The candles branch of
`_on_json_data` does not touch the order dictionaries.) -/
inductive JsonMsg
  | newOrder (now : ℕ) (d : JsonOrderData)
  | deals (ds : List Deal)

/-- `_on_json_data` (client.py) restricted to the order dictionaries:
a new order is tracked only when its id is in neither dictionary; each
deal of a settlement push is processed in list order. -/
def onJsonData (s : OrderTracking) (m : JsonMsg) : OrderTracking :=
  match m with
  | JsonMsg.newOrder now d =>
      if s.active d.requestId = none ∧ s.completed d.requestId = none then
        s.insertActive d.requestId (jsonOrderResult now d)
      else s
  | JsonMsg.deals ds => ds.foldl onDeal s

/-- Folding a whole sequence of JSON pushes over the tracking state. -/
def runJson (s : OrderTracking) (ms : List JsonMsg) : OrderTracking :=
  ms.foldl onJsonData s

/-- No id is in both the active and the completed dictionary. -/
def disjointTrack (s : OrderTracking) : Prop :=
  ∀ id, (s.active id).isSome → (s.completed id).isSome → False

/-- The id is tracked in exactly one of the two dictionaries. -/
def inExactlyOne (s : OrderTracking) (id : String) : Prop :=
  ((s.active id).isSome ∧ ¬(s.completed id).isSome) ∨
    (¬(s.active id).isSome ∧ (s.completed id).isSome)

/-- The id is tracked in at least one of the two dictionaries. -/
def tracked (s : OrderTracking) (id : String) : Prop :=
  (s.active id).isSome ∨ (s.completed id).isSome

/-! ### `_wait_for_order_result` (client.py)

The coroutine polls the two order dictionaries every 200 ms while fewer
than 30000 ms have elapsed, re-checks once after the loop, and otherwise
stores and returns a fallback ACTIVE result.  Push handlers may run at
every suspension point, so the shared state is modelled as a function
`env` from poll index to the `OrderTracking` state seen at that poll. -/

/-- Total polling timeout in milliseconds (`timeout: float = 30.0`). -/
def orderTimeoutMs : ℕ := 30000

/-- Polling interval in milliseconds (`await asyncio.sleep(0.2)`). -/
def orderPollMs : ℕ := 200

/-- Index of the final re-check after the polling loop exits: the loop
body runs for elapsed times `0, 200, ..., 29800` and the last check
happens at 30000 ms. -/
def lastPollIndex : ℕ := orderTimeoutMs / orderPollMs

/-- One poll of `_wait_for_order_result`: the active dictionary is
checked first, then the completed one. -/
def findOrderAt (s : OrderTracking) (id : String) : Option OrderResult :=
  match s.active id with
  | some r => some r
  | none => s.completed id

/-- Polls `fuel` times starting at poll index `k`, returning the first
poll index at which the id was found together with the found result. -/
def waitFrom (env : ℕ → OrderTracking) (id : String) :
    ℕ → ℕ → Option (ℕ × OrderResult)
  | _, 0 => none
  | k, fuel + 1 =>
      match findOrderAt (env k) id with
      | some r => some (k, r)
      | none => waitFrom env id (k + 1) fuel

/-- The fallback result fabricated on timeout (client.py,
`_wait_for_order_result`): status ACTIVE, explanatory `error_message`. -/
def fallbackResult (order : Order) (id : String) (now : ℕ) : OrderResult :=
  { order_id := id
    asset := order.asset
    amount := order.amount
    direction := order.direction
    duration := order.duration
    status := OrderStatus.active
    placed_at := now
    expires_at := now + order.duration
    profit := none
    payout := none
    error_message := some "Timeout waiting for server confirmation" }

/-- `_wait_for_order_result` (client.py): returns the result, the order
tracking state at the moment of return, and the poll index at which the
coroutine returned (elapsed time is the index times 200 ms).  When the id
never appears, the fallback result is stored in the active dictionary. -/
def waitForOrderResult (env : ℕ → OrderTracking) (id : String) (order : Order)
    (now : ℕ) : OrderResult × OrderTracking × ℕ :=
  match waitFrom env id 0 (lastPollIndex + 1) with
  | some (k, r) => (r, env k, k)
  | none =>
      let fb := fallbackResult order id now
      (fb, (env lastPollIndex).insertActive id fb, lastPollIndex)

/-! ### Invariant lemmas for the order dictionaries -/

theorem onDeal_disjoint {s : OrderTracking} (hs : disjointTrack s) (d : Deal) :
    disjointTrack (onDeal s d) := by
  unfold onDeal
  cases hA : s.active d.id with
  | none => exact hs
  | some ao =>
      intro j h1 h2
      by_cases hj : j = d.id
      · subst hj
        simp [OrderTracking.settle] at h1
      · simp only [OrderTracking.settle, if_neg hj] at h1 h2
        exact hs j h1 h2

theorem foldl_onDeal_disjoint (ds : List Deal) :
    ∀ {s : OrderTracking}, disjointTrack s → disjointTrack (ds.foldl onDeal s) := by
  induction ds with
  | nil => intro s hs; exact hs
  | cons d ds ih => intro s hs; exact ih (onDeal_disjoint hs d)

theorem onJsonData_disjoint {s : OrderTracking} (hs : disjointTrack s) (m : JsonMsg) :
    disjointTrack (onJsonData s m) := by
  cases m with
  | newOrder now d =>
      simp only [onJsonData]
      split
      · next hc =>
          intro j h1 h2
          simp only [OrderTracking.insertActive] at h1 h2
          by_cases hj : j = d.requestId
          · rw [hj, hc.2] at h2
            simp at h2
          · rw [if_neg hj] at h1
            exact hs j h1 h2
      · exact hs
  | deals ds => exact foldl_onDeal_disjoint ds hs

theorem runJson_disjoint (ms : List JsonMsg) :
    ∀ {s : OrderTracking}, disjointTrack s → disjointTrack (runJson s ms) := by
  induction ms with
  | nil => intro s hs; exact hs
  | cons m ms ih => intro s hs; exact ih (onJsonData_disjoint hs m)

theorem onDeal_tracked {s : OrderTracking} {id : String} (h : tracked s id) (d : Deal) :
    tracked (onDeal s d) id := by
  unfold onDeal
  cases hA : s.active d.id with
  | none => exact h
  | some ao =>
      by_cases hj : id = d.id
      · subst hj
        right
        simp [OrderTracking.settle]
      · cases h with
        | inl h1 => left; simpa [OrderTracking.settle, if_neg hj] using h1
        | inr h2 => right; simpa [OrderTracking.settle, if_neg hj] using h2

theorem foldl_onDeal_tracked {id : String} (ds : List Deal) :
    ∀ {s : OrderTracking}, tracked s id → tracked (ds.foldl onDeal s) id := by
  induction ds with
  | nil => intro s h; exact h
  | cons d ds ih => intro s h; exact ih (onDeal_tracked h d)

theorem onJsonData_tracked {s : OrderTracking} {id : String} (h : tracked s id)
    (m : JsonMsg) : tracked (onJsonData s m) id := by
  cases m with
  | newOrder now d =>
      simp only [onJsonData]
      split
      · by_cases hj : id = d.requestId
        · left; simp [OrderTracking.insertActive, hj]
        · cases h with
          | inl h1 => left; simpa [OrderTracking.insertActive, if_neg hj] using h1
          | inr h2 => right; exact h2
      · exact h
  | deals ds => exact foldl_onDeal_tracked ds h

theorem runJson_tracked {id : String} (ms : List JsonMsg) :
    ∀ {s : OrderTracking}, tracked s id → tracked (runJson s ms) id := by
  induction ms with
  | nil => intro s h; exact h
  | cons m ms ih => intro s h; exact ih (onJsonData_tracked h m)

theorem inExactlyOne_of {s : OrderTracking} {id : String}
    (hd : disjointTrack s) (ht : tracked s id) : inExactlyOne s id := by
  cases ht with
  | inl h1 => exact Or.inl ⟨h1, fun h2 => hd id h1 h2⟩
  | inr h2 =>
      by_cases h1 : (s.active id).isSome
      · exact (hd id h1 h2).elim
      · exact Or.inr ⟨h1, h2⟩

theorem insertActive_disjoint {s : OrderTracking} {id : String} {r : OrderResult}
    (hs : disjointTrack s) (hc : s.completed id = none) :
    disjointTrack (s.insertActive id r) := by
  intro j h1 h2
  simp only [OrderTracking.insertActive] at h1 h2
  by_cases hj : j = id
  · rw [hj, hc] at h2
    simp at h2
  · rw [if_neg hj] at h1
    exact hs j h1 h2

/-! ### Lemmas about the polling loop -/

theorem waitFrom_found {env : ℕ → OrderTracking} {id : String} :
    ∀ {k0 fuel k : ℕ} {r : OrderResult}, waitFrom env id k0 fuel = some (k, r) →
    findOrderAt (env k) id = some r := by
  intro k0 fuel
  induction fuel generalizing k0 with
  | zero => intro k r h; simp [waitFrom] at h
  | succ n ih =>
      intro k r h
      simp only [waitFrom] at h
      split at h
      · next r' hF =>
          simp only [Option.some.injEq, Prod.mk.injEq] at h
          obtain ⟨hk, hr⟩ := h
          subst hk
          subst hr
          exact hF
      · exact ih h

theorem waitFrom_none_of_never {env : ℕ → OrderTracking} {id : String}
    (h : ∀ k, findOrderAt (env k) id = none) :
    ∀ (k0 fuel : ℕ), waitFrom env id k0 fuel = none := by
  intro k0 fuel
  induction fuel generalizing k0 with
  | zero => rfl
  | succ n ih => simp only [waitFrom, h k0]; exact ih (k0 + 1)

theorem waitFrom_none_elem {env : ℕ → OrderTracking} {id : String} :
    ∀ {k0 fuel j : ℕ}, waitFrom env id k0 fuel = none → j < fuel →
    findOrderAt (env (k0 + j)) id = none := by
  intro k0 fuel
  induction fuel generalizing k0 with
  | zero => intro j h hj; omega
  | succ n ih =>
      intro j h hj
      simp only [waitFrom] at h
      split at h
      · exact absurd h (by simp)
      · next hF =>
          cases j with
          | zero => simpa using hF
          | succ j' =>
              have hEq : k0 + (j' + 1) = (k0 + 1) + j' := by omega
              rw [hEq]
              exact ih h (by omega)

theorem findOrderAt_eq_none {s : OrderTracking} {id : String}
    (h : findOrderAt s id = none) : s.active id = none ∧ s.completed id = none := by
  unfold findOrderAt at h
  cases hA : s.active id with
  | some r => rw [hA] at h; cases h
  | none => rw [hA] at h; exact ⟨rfl, h⟩

/-! ### Stability of a settled order -/

theorem onDeal_settles {s : OrderTracking} {ao : OrderResult} {d : Deal}
    (hA : s.active d.id = some ao) :
    onDeal s d = s.settle d.id (settleResult ao d.profit d.payout) := by
  unfold onDeal
  rw [hA]

theorem onDeal_settled_stable {s : OrderTracking} {id : String} {r : OrderResult}
    (hc : s.completed id = some r) (hA : s.active id = none) (d : Deal) :
    (onDeal s d).completed id = some r ∧ (onDeal s d).active id = none := by
  unfold onDeal
  cases hA' : s.active d.id with
  | none => exact ⟨hc, hA⟩
  | some ao =>
      by_cases hj : id = d.id
      · rw [hj] at hA
        rw [hA] at hA'
        cases hA'
      · constructor
        · simpa [OrderTracking.settle, if_neg hj] using hc
        · simpa [OrderTracking.settle, if_neg hj] using hA

theorem foldl_onDeal_settled_stable {id : String} {r : OrderResult} (ds : List Deal) :
    ∀ {s : OrderTracking}, s.completed id = some r → s.active id = none →
    (ds.foldl onDeal s).completed id = some r ∧ (ds.foldl onDeal s).active id = none := by
  induction ds with
  | nil => intro s hc hA; exact ⟨hc, hA⟩
  | cons d ds ih =>
      intro s hc hA
      have h := onDeal_settled_stable hc hA d
      exact ih h.1 h.2

theorem onJsonData_settled_stable {s : OrderTracking} {id : String} {r : OrderResult}
    (hc : s.completed id = some r) (hA : s.active id = none) (m : JsonMsg) :
    (onJsonData s m).completed id = some r ∧ (onJsonData s m).active id = none := by
  cases m with
  | newOrder now d =>
      simp only [onJsonData]
      split
      · next hcond =>
          by_cases hj : id = d.requestId
          · rw [hj] at hc
            rw [hcond.2] at hc
            cases hc
          · exact ⟨hc, by simpa [OrderTracking.insertActive, if_neg hj] using hA⟩
      · exact ⟨hc, hA⟩
  | deals ds => exact foldl_onDeal_settled_stable ds hc hA

theorem runJson_settled_stable {id : String} {r : OrderResult} (ms : List JsonMsg) :
    ∀ {s : OrderTracking}, s.completed id = some r → s.active id = none →
    (runJson s ms).completed id = some r ∧ (runJson s ms).active id = none := by
  induction ms with
  | nil => intro s hc hA; exact ⟨hc, hA⟩
  | cons m ms ih =>
      intro s hc hA
      have h := onJsonData_settled_stable hc hA m
      exact ih h.1 h.2

theorem foldl_onDeal_active_stable {oid : String} {ao : OrderResult} (ds : List Deal)
    (hds : ∀ d' ∈ ds, d'.id ≠ oid) :
    ∀ {s : OrderTracking}, s.active oid = some ao →
    (ds.foldl onDeal s).active oid = some ao := by
  induction ds with
  | nil => intro s h; exact h
  | cons d ds ih =>
      intro s h
      have hd : d.id ≠ oid := hds d (List.mem_cons_self d ds)
      have hstep : (onDeal s d).active oid = some ao := by
        unfold onDeal
        cases hA' : s.active d.id with
        | none => exact h
        | some ao' =>
            have hj : oid ≠ d.id := fun hEq => hd hEq.symm
            simpa [OrderTracking.settle, if_neg hj] using h
      exact ih (fun d' hmem => hds d' (List.mem_cons_of_mem d hmem)) hstep

/-! ### Concrete sample values used by the witnesses -/

def sampleOrder : Order :=
  { asset := "EURUSD_otc", amount := 10, direction := OrderDirection.call,
    duration := 60, request_id := "req-1" }

def sampleActive : OrderResult :=
  { order_id := "o1", asset := "EURUSD_otc", amount := 10,
    direction := OrderDirection.call, duration := 60,
    status := OrderStatus.active, placed_at := 0, expires_at := 60 }

/-! ### Claims C1, C2, C8 -/

/-- C1: if no push event ever references the placed order's request id,
`_wait_for_order_result` still returns — at an elapsed polling time within
its 30 s bound — the fabricated fallback `OrderResult` whose status is
ACTIVE and whose `error_message` is non-null, and that fallback is
inserted into the active-order dictionary so a late push can still
transition it; the polling loop never blocks unboundedly (the modelled
coroutine is a total function whose poll count is bounded). -/
theorem place_order_timeout_fallback
    (env : ℕ → OrderTracking) (id : String) (order : Order) (now : ℕ)
    (hnever : ∀ k, findOrderAt (env k) id = none) :
    (waitForOrderResult env id order now).1 = fallbackResult order id now ∧
    (waitForOrderResult env id order now).1.status = OrderStatus.active ∧
    (waitForOrderResult env id order now).1.error_message ≠ none ∧
    (waitForOrderResult env id order now).2.1.active id =
      some (fallbackResult order id now) ∧
    (waitForOrderResult env id order now).2.2 * orderPollMs ≤ orderTimeoutMs := by
  have hW : waitFrom env id 0 (lastPollIndex + 1) = none :=
    waitFrom_none_of_never hnever 0 (lastPollIndex + 1)
  refine ⟨?_, ?_, ?_, ?_, ?_⟩
  · simp [waitForOrderResult, hW]
  · simp [waitForOrderResult, hW, fallbackResult]
  · simp [waitForOrderResult, hW, fallbackResult]
  · simp [waitForOrderResult, hW, OrderTracking.insertActive]
  · simp only [waitForOrderResult, hW]
    decide

/-- Witness for C1 at a concrete environment in which the order id never
appears in either dictionary. -/
theorem place_order_timeout_fallback_witness :
    (∀ k : ℕ, findOrderAt ((fun _ : ℕ => OrderTracking.empty) k) "req-1" = none) ∧
    (waitForOrderResult (fun _ : ℕ => OrderTracking.empty) "req-1" sampleOrder 0).1.status =
      OrderStatus.active := by
  have hnever : ∀ k : ℕ, findOrderAt ((fun _ : ℕ => OrderTracking.empty) k) "req-1" = none :=
    fun _ => rfl
  exact ⟨hnever,
    (place_order_timeout_fallback (fun _ : ℕ => OrderTracking.empty) "req-1" sampleOrder 0
      hnever).2.1⟩

/-- C2: an order id returned by `place_order` is present in exactly one of
the active-order and completed-order dictionaries at every inspection
point: immediately after `_wait_for_order_result` returns (whether it
found the id or stored the fallback) and after any further sequence of
JSON pushes (new-order tracking, settlement handling) is processed. -/
theorem order_id_in_exactly_one_set
    (env : ℕ → OrderTracking) (id : String) (order : Order) (now : ℕ)
    (henv : ∀ k, disjointTrack (env k)) (ms : List JsonMsg) :
    inExactlyOne (runJson (waitForOrderResult env id order now).2.1 ms) id := by
  have key : disjointTrack (waitForOrderResult env id order now).2.1 ∧
      tracked (waitForOrderResult env id order now).2.1 id := by
    cases hW : waitFrom env id 0 (lastPollIndex + 1) with
    | some kr =>
        obtain ⟨k, r⟩ := kr
        have hstate : (waitForOrderResult env id order now).2.1 = env k := by
          simp [waitForOrderResult, hW]
        rw [hstate]
        refine ⟨henv k, ?_⟩
        have hF := waitFrom_found hW
        unfold findOrderAt at hF
        cases hA : (env k).active id with
        | some r' => exact Or.inl (by rw [hA]; rfl)
        | none =>
            rw [hA] at hF
            have hF' : (env k).completed id = some r := hF
            exact Or.inr (by rw [hF']; rfl)
    | none =>
        have hstate : (waitForOrderResult env id order now).2.1 =
            (env lastPollIndex).insertActive id (fallbackResult order id now) := by
          simp [waitForOrderResult, hW]
        have hempty := findOrderAt_eq_none
          (waitFrom_none_elem (j := lastPollIndex) hW (by omega))
        rw [hstate]
        refine ⟨insertActive_disjoint (henv lastPollIndex) hempty.2, ?_⟩
        exact Or.inl (by simp [OrderTracking.insertActive])
  exact inExactlyOne_of (runJson_disjoint ms key.1) (runJson_tracked ms key.2)

/-- Witness for C2 at a concrete empty environment and no further pushes. -/
theorem order_id_in_exactly_one_set_witness :
    (∀ k : ℕ, disjointTrack ((fun _ : ℕ => OrderTracking.empty) k)) ∧
    inExactlyOne
      (runJson (waitForOrderResult (fun _ : ℕ => OrderTracking.empty) "req-1" sampleOrder 0).2.1 [])
      "req-1" := by
  have henv : ∀ k : ℕ, disjointTrack ((fun _ : ℕ => OrderTracking.empty) k) := by
    intro k j h1 h2
    simp [OrderTracking.empty] at h1
  exact ⟨henv,
    order_id_in_exactly_one_set (fun _ : ℕ => OrderTracking.empty) "req-1" sampleOrder 0 henv []⟩

/-- C8: a settlement push whose deals list contains a deal for an order
currently in the active dictionary moves that order to the completed
dictionary, with status WIN exactly when the deal's profit is positive
and LOSE when it is ≤ 0, and the settled entry is terminal: no later
handler invocation (further deals of the same push or any later JSON
push) changes it or re-activates the id. -/
theorem settlement_moves_active_to_completed
    (s : OrderTracking) (oid : String) (ao : OrderResult)
    (pre post : List Deal) (d : Deal) (ms : List JsonMsg)
    (hA : s.active oid = some ao) (hd : d.id = oid)
    (hpre : ∀ d' ∈ pre, d'.id ≠ oid) :
    (runJson (onJsonData s (JsonMsg.deals (pre ++ d :: post))) ms).completed oid =
      some (settleResult ao d.profit d.payout) ∧
    (runJson (onJsonData s (JsonMsg.deals (pre ++ d :: post))) ms).active oid = none ∧
    (0 < d.profit → (settleResult ao d.profit d.payout).status = OrderStatus.win) ∧
    (d.profit ≤ 0 → (settleResult ao d.profit d.payout).status = OrderStatus.lose) := by
  have hA1 : (pre.foldl onDeal s).active oid = some ao :=
    foldl_onDeal_active_stable pre hpre hA
  have hAd : (pre.foldl onDeal s).active d.id = some ao := by
    rw [hd]; exact hA1
  have hsettle :
      (onDeal (pre.foldl onDeal s) d).completed oid =
        some (settleResult ao d.profit d.payout) ∧
      (onDeal (pre.foldl onDeal s) d).active oid = none := by
    rw [onDeal_settles hAd, hd]
    constructor
    · simp [OrderTracking.settle]
    · simp [OrderTracking.settle]
  have hfold := foldl_onDeal_settled_stable post hsettle.1 hsettle.2
  have hmsg : onJsonData s (JsonMsg.deals (pre ++ d :: post)) =
      post.foldl onDeal (onDeal (pre.foldl onDeal s) d) := by
    simp [onJsonData]
  have hrun := runJson_settled_stable ms (hmsg ▸ hfold.1) (hmsg ▸ hfold.2)
  refine ⟨hrun.1, hrun.2, ?_, ?_⟩
  · intro hp
    simp [settleResult, dealStatus, hp]
  · intro hp
    have hnp : ¬0 < d.profit := not_lt.mpr hp
    simp only [settleResult, dealStatus, if_neg hnp]
    split <;> rfl

/-- Witness for C8: a single-deal settlement push for a concretely
tracked active order, with a positive profit. -/
theorem settlement_moves_active_to_completed_witness :
    ((OrderTracking.empty.insertActive "o1" sampleActive).active "o1" = some sampleActive) ∧
    (runJson
        (onJsonData (OrderTracking.empty.insertActive "o1" sampleActive)
          (JsonMsg.deals ([] ++ ⟨"o1", 8, none⟩ :: []))) []).completed "o1" =
      some (settleResult sampleActive 8 none) := by
  have hA : (OrderTracking.empty.insertActive "o1" sampleActive).active "o1" =
      some sampleActive := by
    simp [OrderTracking.empty, OrderTracking.insertActive]
  exact ⟨hA,
    (settlement_moves_active_to_completed
      (OrderTracking.empty.insertActive "o1" sampleActive) "o1" sampleActive
      [] [] ⟨"o1", 8, none⟩ [] hA rfl (fun d' h => absurd h (List.not_mem_nil d'))).1⟩

/-! ### CircuitBreaker (monitoring.py)

`CircuitBreaker.call` checks the OPEN state before invoking the wrapped
operation; `on_success` and `on_failure` update the failure counter and
the state exactly as in the source.  `time.time()` is embedded as a
natural-number timestamp passed to each call. -/

/-- The three values of the `self.state` string: CLOSED, OPEN, HALF_OPEN. -/
inductive CBState
  | closed
  | opened
  | halfOpen
  deriving DecidableEq, Repr

/-- `CircuitBreaker.__init__` fields (monitoring.py). -/
structure CircuitBreaker where
  failure_threshold : ℕ
  recovery_timeout : ℕ
  failure_count : ℕ
  last_failure_time : Option ℕ
  state : CBState
  deriving DecidableEq, Repr

/-- A freshly constructed breaker: zero failures, no failure time,
CLOSED. -/
def CircuitBreaker.mk0 (threshold recovery : ℕ) : CircuitBreaker :=
  { failure_threshold := threshold, recovery_timeout := recovery,
    failure_count := 0, last_failure_time := none, state := CBState.closed }

/-- `on_success` (monitoring.py): reset the counter, close the circuit. -/
def on_success (cb : CircuitBreaker) : CircuitBreaker :=
  { cb with failure_count := 0, state := CBState.closed }

/-- `on_failure` (monitoring.py): bump the counter, record the failure
time, and open the circuit when the counter reaches the threshold. -/
def on_failure (cb : CircuitBreaker) (now : ℕ) : CircuitBreaker :=
  { cb with failure_count := cb.failure_count + 1
            last_failure_time := some now
            state := if cb.failure_threshold ≤ cb.failure_count + 1 then
                CBState.opened
              else cb.state }

/-- The guard `self.last_failure_time is not None and
time.time() - self.last_failure_time < self.recovery_timeout`. -/
def cbBlocked (cb : CircuitBreaker) (now : ℕ) : Bool :=
  match cb.last_failure_time with
  | some t => decide (now - t < cb.recovery_timeout)
  | none => false

/-- Result of one `call`: the breaker afterwards, whether the wrapped
operation was invoked, and — when it was — the state at the moment of
invocation. -/
structure CBCallResult where
  cb : CircuitBreaker
  invoked : Bool
  stateAtInvoke : Option CBState
  deriving DecidableEq, Repr

/-- `CircuitBreaker.call` (monitoring.py) with the wrapped operation's
outcome supplied as `opFails`: while OPEN and inside the recovery window
it raises without invoking; otherwise an OPEN breaker is moved to
HALF_OPEN before the invocation; a success runs `on_success`, a failure
`on_failure`. -/
def cbCall (cb : CircuitBreaker) (now : ℕ) (opFails : Bool) : CBCallResult :=
  if cb.state = CBState.opened then
    if cbBlocked cb now then
      { cb := cb, invoked := false, stateAtInvoke := none }
    else
      let cb1 := { cb with state := CBState.halfOpen }
      { cb := if opFails then on_failure cb1 now else on_success cb1
        invoked := true, stateAtInvoke := some CBState.halfOpen }
  else
    { cb := if opFails then on_failure cb now else on_success cb
      invoked := true, stateAtInvoke := some cb.state }

/-- `n` consecutive failing calls, all at time `now`. -/
def cbFailCalls (cb : CircuitBreaker) (now : ℕ) : ℕ → CircuitBreaker
  | 0 => cb
  | n + 1 => (cbCall (cbFailCalls cb now n) now true).cb

/-- States reachable by `call` from a fresh breaker: OPEN implies the
counter reached the threshold and a failure time is recorded, HALF_OPEN
implies the counter reached the threshold. -/
def cbInvariant (cb : CircuitBreaker) : Prop :=
  (cb.state = CBState.opened →
    cb.failure_threshold ≤ cb.failure_count ∧ cb.last_failure_time ≠ none) ∧
  (cb.state = CBState.halfOpen → cb.failure_threshold ≤ cb.failure_count)

theorem cbCall_notOpened {cb : CircuitBreaker} {now : ℕ} {b : Bool}
    (h : ¬cb.state = CBState.opened) :
    cbCall cb now b =
      { cb := if b then on_failure cb now else on_success cb
        invoked := true, stateAtInvoke := some cb.state } := by
  unfold cbCall
  rw [if_neg h]

theorem cbFailCalls_spec (threshold recovery now : ℕ) (h1 : 1 ≤ threshold) :
    ∀ n, n ≤ threshold →
      (cbFailCalls (CircuitBreaker.mk0 threshold recovery) now n).failure_threshold
          = threshold ∧
      (cbFailCalls (CircuitBreaker.mk0 threshold recovery) now n).failure_count = n ∧
      (cbFailCalls (CircuitBreaker.mk0 threshold recovery) now n).state =
        (if threshold ≤ n then CBState.opened else CBState.closed) := by
  intro n
  induction n with
  | zero =>
      intro _
      refine ⟨rfl, rfl, ?_⟩
      rw [if_neg (by omega)]
      rfl
  | succ m ih =>
      intro hm
      obtain ⟨hth, hc, hs⟩ := ih (by omega)
      have hsClosed : (cbFailCalls (CircuitBreaker.mk0 threshold recovery) now m).state
          = CBState.closed := by
        rw [hs, if_neg (by omega)]
      simp only [cbFailCalls]
      rw [cbCall_notOpened (by rw [hsClosed]; intro hx; cases hx)]
      refine ⟨?_, ?_, ?_⟩
      · simp [on_failure, hth]
      · simp [on_failure, hc]
      · simp only [if_pos, on_failure]
        rw [hth, hc, hsClosed]

/-- C3: the CircuitBreaker's transitions are exactly those of the claim:
(1) from a fresh breaker, `failure_threshold` consecutive failures open
the circuit and fewer leave it closed; (2) while OPEN inside the recovery
window a call raises without invoking and changes nothing; (3) the first
call after the window ends invokes the operation in state HALF_OPEN;
(4) an invoked success closes the circuit and resets the counter; (5) a
failure of the HALF_OPEN invocation re-opens the circuit and records the
failure time; (6) on reachable breakers `call` preserves the reachability
invariant and never leaves the breaker in HALF_OPEN between calls; (7)
from CLOSED, a failing call opens the circuit exactly when the bumped
counter reaches the threshold. -/
theorem circuit_breaker_transitions :
    (∀ threshold recovery now : ℕ, 1 ≤ threshold →
      (∀ n, n < threshold →
        (cbFailCalls (CircuitBreaker.mk0 threshold recovery) now n).state =
          CBState.closed) ∧
      (cbFailCalls (CircuitBreaker.mk0 threshold recovery) now threshold).state =
        CBState.opened) ∧
    (∀ (cb : CircuitBreaker) (now : ℕ) (b : Bool) (t : ℕ),
      cb.state = CBState.opened → cb.last_failure_time = some t →
      now - t < cb.recovery_timeout →
      (cbCall cb now b).invoked = false ∧ (cbCall cb now b).cb = cb) ∧
    (∀ (cb : CircuitBreaker) (now : ℕ) (b : Bool),
      cb.state = CBState.opened → cbBlocked cb now = false →
      (cbCall cb now b).invoked = true ∧
      (cbCall cb now b).stateAtInvoke = some CBState.halfOpen) ∧
    (∀ (cb : CircuitBreaker) (now : ℕ),
      (cbCall cb now false).invoked = true →
      (cbCall cb now false).cb.state = CBState.closed ∧
      (cbCall cb now false).cb.failure_count = 0) ∧
    (∀ (cb : CircuitBreaker) (now : ℕ),
      cbInvariant cb → cb.state = CBState.opened → cbBlocked cb now = false →
      (cbCall cb now true).cb.state = CBState.opened ∧
      (cbCall cb now true).cb.last_failure_time = some now) ∧
    (∀ (cb : CircuitBreaker) (now : ℕ) (b : Bool),
      cbInvariant cb →
      cbInvariant (cbCall cb now b).cb ∧
      (cb.state ≠ CBState.halfOpen → (cbCall cb now b).cb.state ≠ CBState.halfOpen)) ∧
    (∀ (cb : CircuitBreaker) (now : ℕ),
      cb.state = CBState.closed →
      ((cbCall cb now true).cb.state = CBState.opened ↔
        cb.failure_threshold ≤ cb.failure_count + 1)) := by
  refine ⟨?_, ?_, ?_, ?_, ?_, ?_, ?_⟩
  · intro threshold recovery now h1
    constructor
    · intro n hn
      have h := (cbFailCalls_spec threshold recovery now h1 n (by omega)).2.2
      rw [h, if_neg (by omega)]
    · have h := (cbFailCalls_spec threshold recovery now h1 threshold (by omega)).2.2
      rw [h, if_pos (by omega)]
  · intro cb now b t hs hl ht
    have hb : cbBlocked cb now = true := by
      unfold cbBlocked
      rw [hl]
      simpa using ht
    constructor <;> simp [cbCall, hs, hb]
  · intro cb now b hs hb
    constructor <;> simp [cbCall, hs, hb]
  · intro cb now hinvk
    by_cases hs : cb.state = CBState.opened
    · by_cases hb : cbBlocked cb now = true
      · exact absurd hinvk (by simp [cbCall, hs, hb])
      · simp only [Bool.not_eq_true] at hb
        constructor <;> simp [cbCall, hs, hb, on_success]
    · constructor <;> simp [cbCall, hs, on_success]
  · intro cb now hinv hs hb
    have hth : cb.failure_threshold ≤ cb.failure_count := (hinv.1 hs).1
    constructor <;> simp [cbCall, hs, hb, on_failure, Nat.le_succ_of_le hth]
  · intro cb now b hinv
    by_cases hs : cb.state = CBState.opened
    · by_cases hb : cbBlocked cb now = true
      · constructor
        · simpa [cbCall, hs, hb] using hinv
        · intro _
          simp [cbCall, hs, hb]
      · simp only [Bool.not_eq_true] at hb
        have hth : cb.failure_threshold ≤ cb.failure_count := (hinv.1 hs).1
        cases b with
        | false =>
            constructor
            · constructor <;> simp [cbCall, hs, hb, on_success]
            · intro _
              simp [cbCall, hs, hb, on_success]
        | true =>
            constructor
            · constructor <;>
                simp [cbCall, hs, hb, on_failure, Nat.le_succ_of_le hth]
            · intro _
              simp [cbCall, hs, hb, on_failure, Nat.le_succ_of_le hth]
    · cases b with
      | false =>
          constructor
          · constructor <;> simp [cbCall, hs, on_success]
          · intro _
            simp [cbCall, hs, on_success]
      | true =>
          by_cases hth : cb.failure_threshold ≤ cb.failure_count + 1
          · constructor
            · constructor <;> simp [cbCall, hs, on_failure, hth]
            · intro _
              simp [cbCall, hs, on_failure, hth]
          · constructor
            · constructor
              · intro hpost
                simp [cbCall, hs, on_failure, hth] at hpost
              · intro hpost
                simp [cbCall, hs, on_failure, hth] at hpost
                exact absurd (hinv.2 hpost) (by omega)
            · intro hnh
              simp only [cbCall, if_neg hs]
              simp [on_failure, hth]
              exact hnh
  · intro cb now hs
    have hno : ¬cb.state = CBState.opened := by
      rw [hs]
      intro hx
      cases hx
    rw [cbCall_notOpened hno]
    by_cases hth : cb.failure_threshold ≤ cb.failure_count + 1
    · simp [on_failure, hth]
    · simp [on_failure, hth, hs]

/-- Witness for C3: a fresh breaker with threshold 1 opens after one
failing call. -/
theorem circuit_breaker_transitions_witness :
    (1 ≤ 1) ∧ (cbFailCalls (CircuitBreaker.mk0 1 5) 0 1).state = CBState.opened :=
  ⟨Nat.le_refl 1, (circuit_breaker_transitions.1 1 5 0 (Nat.le_refl 1)).2⟩

/-! ### RetryPolicy (monitoring.py)

`RetryPolicy.execute` runs the wrapped operation up to `max_attempts`
times; the outcome of the operation at each attempt is supplied as a
function `op`, and the values of `random.random()` used for the jitter as
a function `js` into `[0, 1)`. -/

/-- `RetryPolicy.__init__` fields (monitoring.py). -/
structure RetryPolicy where
  max_attempts : ℕ
  base_delay : ℚ
  max_delay : ℚ
  exponential_base : ℚ
  jitter : Bool

/-- Result of `execute`: the operation's return value, the re-raised
last error, or the library-internal exception raised when no attempt ran. -/
inductive RetryOutcome (ε α : Type)
  | ok (a : α)
  | raised (e : ε)
  | internal
  deriving DecidableEq, Repr

/-- The sleep before the attempt following failed attempt index
`attempt` (monitoring.py): `min(base * exponential_base**attempt,
max_delay)`, multiplied by `0.5 + random.random() * 0.5` when jitter is
enabled. -/
def retryDelay (p : RetryPolicy) (attempt : ℕ) (j : ℚ) : ℚ :=
  let d := min (p.base_delay * p.exponential_base ^ attempt) p.max_delay
  if p.jitter then d * (1 / 2 + j * (1 / 2)) else d

/-- The retry loop of `execute` starting at attempt index `k` with `rem`
attempts remaining: returns the number of invocations performed, the list
of sleeps taken (in order), and the outcome. -/
def retryFrom (p : RetryPolicy) (op : ℕ → Except ε α) (js : ℕ → ℚ) :
    ℕ → ℕ → ℕ × List ℚ × RetryOutcome ε α
  | _, 0 => (0, [], RetryOutcome.internal)
  | k, 1 =>
      match op k with
      | Except.ok a => (1, [], RetryOutcome.ok a)
      | Except.error e => (1, [], RetryOutcome.raised e)
  | k, rem + 2 =>
      match op k with
      | Except.ok a => (1, [], RetryOutcome.ok a)
      | Except.error _ =>
          let r := retryFrom p op js (k + 1) (rem + 1)
          (r.1 + 1, retryDelay p k (js k) :: r.2.1, r.2.2)

/-- `RetryPolicy.execute` (monitoring.py). -/
def retryExecute (p : RetryPolicy) (op : ℕ → Except ε α) (js : ℕ → ℚ) :
    ℕ × List ℚ × RetryOutcome ε α :=
  retryFrom p op js 0 p.max_attempts

theorem retryFrom_count_le (p : RetryPolicy) (op : ℕ → Except ε α) (js : ℕ → ℚ) :
    ∀ rem k, (retryFrom p op js k rem).1 ≤ rem := by
  intro rem
  induction rem using Nat.strong_induction_on with
  | _ rem ih =>
      match rem with
      | 0 => intro k; simp [retryFrom]
      | 1 =>
          intro k
          simp only [retryFrom]
          cases op k <;> simp
      | r + 2 =>
          intro k
          simp only [retryFrom]
          cases op k with
          | ok a => simp
          | error e =>
              have := ih (r + 1) (by omega) (k + 1)
              simpa using Nat.succ_le_succ this

theorem retryFrom_delays (p : RetryPolicy) (op : ℕ → Except ε α) (js : ℕ → ℚ) :
    ∀ rem k i (d : ℚ), (retryFrom p op js k rem).2.1.get? i = some d →
      d = retryDelay p (k + i) (js (k + i)) := by
  intro rem
  induction rem using Nat.strong_induction_on with
  | _ rem ih =>
      match rem with
      | 0 => intro k i d h; simp [retryFrom] at h
      | 1 =>
          intro k i d h
          simp only [retryFrom] at h
          split at h <;> simp at h
      | r + 2 =>
          intro k i d h
          simp only [retryFrom] at h
          split at h
          · simp at h
          · simp only at h
            cases i with
            | zero =>
                rw [List.get?_cons_zero] at h
                cases h
                rw [Nat.add_zero]
            | succ i' =>
                rw [List.get?_cons_succ] at h
                have hrec := ih (r + 1) (by omega) (k + 1) i' d h
                have hk : k + 1 + i' = k + (i' + 1) := by omega
                rw [hk] at hrec
                exact hrec

/-- C9: for `RetryPolicy(max_attempts=3, base_delay=1.0)` (with
`max_delay=60`, `exponential_base=2`, jitter on or off), `execute`
invokes the operation at most 3 times; every sleep before attempt `k`
lies in `[0, min(base * 2^(k-1), max_delay)]` (the sleep at list index
`i` precedes attempt `i+2`, so its bound is `min(2^(i+1), 60)`); and when
every attempt fails, the error of the last attempt is re-raised. -/
theorem retry_policy_bounds {ε α : Type} (jitter : Bool) (op : ℕ → Except ε α)
    (js : ℕ → ℚ) (hjs : ∀ i, 0 ≤ js i ∧ js i < 1) :
    (retryExecute ⟨3, 1, 60, 2, jitter⟩ op js).1 ≤ 3 ∧
    (∀ i (d : ℚ), (retryExecute ⟨3, 1, 60, 2, jitter⟩ op js).2.1.get? i = some d →
      0 ≤ d ∧ d ≤ min ((1 : ℚ) * 2 ^ (i + 1)) 60) ∧
    (∀ e0 e1 e2, op 0 = Except.error e0 → op 1 = Except.error e1 →
      op 2 = Except.error e2 →
      (retryExecute ⟨3, 1, 60, 2, jitter⟩ op js).2.2 = RetryOutcome.raised e2) := by
  refine ⟨retryFrom_count_le _ op js 3 0, ?_, ?_⟩
  · intro i d h
    have hd := retryFrom_delays ⟨3, 1, 60, 2, jitter⟩ op js 3 0 i d h
    rw [Nat.zero_add] at hd
    have hj := hjs i
    have hmono : min ((1 : ℚ) * 2 ^ i) 60 ≤ min ((1 : ℚ) * 2 ^ (i + 1)) 60 := by
      apply min_le_min _ (le_refl (60 : ℚ))
      have : (2 : ℚ) ^ i ≤ 2 ^ (i + 1) :=
        pow_le_pow_right₀ (by norm_num) (Nat.le_succ i)
      linarith
    have hm0 : (0 : ℚ) ≤ min ((1 : ℚ) * 2 ^ i) 60 := by
      apply le_min _ (by norm_num)
      positivity
    rw [hd]
    unfold retryDelay
    simp only
    cases jitter with
    | false => exact ⟨hm0, hmono⟩
    | true =>
        simp only [if_pos]
        have hf0 : (0 : ℚ) ≤ 1 / 2 + js i * (1 / 2) := by
          have := hj.1
          linarith
        have hf1 : 1 / 2 + js i * (1 / 2) ≤ 1 := by
          have := hj.2
          linarith
        constructor
        · exact mul_nonneg hm0 hf0
        · calc min ((1 : ℚ) * 2 ^ i) 60 * (1 / 2 + js i * (1 / 2)) ≤
              min ((1 : ℚ) * 2 ^ i) 60 * 1 :=
                mul_le_mul_of_nonneg_left hf1 hm0
            _ = min ((1 : ℚ) * 2 ^ i) 60 := mul_one _
            _ ≤ min ((1 : ℚ) * 2 ^ (i + 1)) 60 := hmono
  · intro e0 e1 e2 h0 h1 h2
    simp [retryExecute, retryFrom, h0, h1, h2]

/-- Witness for C9: jitter off, an always-failing operation, zero jitter
samples. -/
theorem retry_policy_bounds_witness :
    (∀ i : ℕ, (0 : ℚ) ≤ (fun _ : ℕ => (0 : ℚ)) i ∧ (fun _ : ℕ => (0 : ℚ)) i < 1) ∧
    (retryExecute ⟨3, 1, 60, 2, false⟩
      (fun _ : ℕ => (Except.error 7 : Except ℕ ℕ)) (fun _ : ℕ => (0 : ℚ))).1 ≤ 3 := by
  have hjs : ∀ i : ℕ, (0 : ℚ) ≤ (fun _ : ℕ => (0 : ℚ)) i ∧ (fun _ : ℕ => (0 : ℚ)) i < 1 :=
    fun _ => ⟨le_refl 0, by norm_num⟩
  exact ⟨hjs,
    (retry_policy_bounds false (fun _ : ℕ => (Except.error 7 : Except ℕ ℕ))
      (fun _ : ℕ => (0 : ℚ)) hjs).1⟩

/-! ### ErrorMonitor (monitoring.py)

`record_error` appends the error's timestamp to the per-type pattern list
and `_check_alert_conditions` fires every registered alert callback
whenever the count of timestamps of that type within the alert window
reaches the threshold.  Only the per-type timestamp patterns matter for
the alert behaviour, so the embedding keeps just those, and returns
whether the callbacks fired for a given recording. -/

/-- `ErrorMonitor.__init__` fields relevant to alerting (monitoring.py). -/
structure ErrorMonitor where
  alert_threshold : ℕ
  alert_window : ℕ
  patterns : String → List ℕ

/-- A freshly constructed monitor: empty per-type patterns
(`defaultdict(list)`). -/
def ErrorMonitor.mk0 (threshold window : ℕ) : ErrorMonitor :=
  { alert_threshold := threshold, alert_window := window, patterns := fun _ => [] }

/-- `record_error` followed by `_check_alert_conditions` (monitoring.py):
the timestamp is appended, the timestamps of the same type not older than
`alert_window` are counted, and the alert callbacks fire exactly when
that count reaches the threshold.  Returns the updated monitor and
whether the callbacks fired on this recording. -/
def record_error (m : ErrorMonitor) (etype : String) (now : ℕ) :
    ErrorMonitor × Bool :=
  let pats := m.patterns etype ++ [now]
  let recent := pats.filter (fun ts => decide (now - m.alert_window ≤ ts))
  ({ m with patterns := fun k => if k = etype then pats else m.patterns k },
    decide (m.alert_threshold ≤ recent.length))

/-- Recording a sequence of same-type errors, counting the number of
alert-callback firings. -/
def recordSeq (m : ErrorMonitor) (etype : String) : List ℕ → ErrorMonitor × ℕ
  | [] => (m, 0)
  | t :: ts =>
      let r := record_error m etype t
      let rest := recordSeq r.1 etype ts
      (rest.1, (if r.2 then 1 else 0) + rest.2)

theorem recordSeq_replicate (etype : String) (t : ℕ) :
    ∀ (n k : ℕ) (m : ErrorMonitor), m.patterns etype = List.replicate k t →
    (recordSeq m etype (List.replicate n t)).2 =
      (k + n + 1 - m.alert_threshold) - (k + 1 - m.alert_threshold) := by
  intro n
  induction n with
  | zero => intro k m _; simp [recordSeq]
  | succ n ih =>
      intro k m hp
      have hpats : m.patterns etype ++ [t] = List.replicate (k + 1) t := by
        rw [hp]
        exact (List.replicate_succ' ..).symm
      have hfilter :
          (List.replicate (k + 1) t).filter (fun ts => decide (t - m.alert_window ≤ ts))
            = List.replicate (k + 1) t := by
        apply List.filter_eq_self.mpr
        intro a ha
        rw [List.eq_of_mem_replicate ha]
        exact decide_eq_true (Nat.sub_le t m.alert_window)
      have hfired : (record_error m etype t).2 =
          decide (m.alert_threshold ≤ k + 1) := by
        simp only [record_error, hpats, hfilter]
        rw [List.length_replicate]
      have hnext : (record_error m etype t).1.patterns etype =
          List.replicate (k + 1) t := by
        show (if etype = etype then m.patterns etype ++ [t] else m.patterns etype) =
          List.replicate (k + 1) t
        rw [if_pos rfl]
        exact hpats
      have hth : (record_error m etype t).1.alert_threshold = m.alert_threshold := rfl
      have hrec := ih (k + 1) (record_error m etype t).1 hnext
      rw [hth] at hrec
      show (if (record_error m etype t).2 then 1 else 0) +
          (recordSeq (record_error m etype t).1 etype (List.replicate n t)).2 = _
      rw [hrec, hfired]
      by_cases hle : m.alert_threshold ≤ k + 1
      · rw [if_pos (by simpa using hle)]
        omega
      · rw [if_neg (by simpa using hle)]
        omega

/-- C4 counterexample: with the default threshold 10 and window 300 s,
ten same-type errors at one timestamp fire the alert callbacks once, but
an eleventh error of the same type — inside the same window — fires them
a second time, so the callbacks are not fired exactly once per window. -/
theorem error_monitor_alert_refires_counterexample :
    (recordSeq (ErrorMonitor.mk0 10 300) "api" (List.replicate 10 0)).2 = 1 ∧
    (recordSeq (ErrorMonitor.mk0 10 300) "api" (List.replicate 11 0)).2 = 2 := by
  constructor <;> decide

/-- C4 (amended): the alert callbacks fire at every recording whose
same-type in-window count reaches the threshold, with no suppression:
for `n` errors of one type recorded at a single timestamp (hence all
inside one window) on a fresh monitor, the callbacks fire
`n + 1 - threshold` times — exactly once when `n = threshold`, and once
more for every further error of that type inside the window. -/
theorem error_monitor_alert_per_threshold_error (threshold window n : ℕ)
    (etype : String) (t : ℕ) (h1 : 1 ≤ threshold) :
    (recordSeq (ErrorMonitor.mk0 threshold window) etype (List.replicate n t)).2 =
      n + 1 - threshold ∧
    (n = threshold →
      (recordSeq (ErrorMonitor.mk0 threshold window) etype (List.replicate n t)).2 = 1) := by
  have h := recordSeq_replicate etype t n 0 (ErrorMonitor.mk0 threshold window) rfl
  have hth : (ErrorMonitor.mk0 threshold window).alert_threshold = threshold := rfl
  rw [hth] at h
  constructor
  · rw [h]
    omega
  · intro hn
    rw [h]
    omega

/-- Witness for C4's amended theorem at the default threshold and window
with exactly ten errors. -/
theorem error_monitor_alert_per_threshold_error_witness :
    (1 ≤ 10) ∧
    (recordSeq (ErrorMonitor.mk0 10 300) "api" (List.replicate 10 0)).2 = 10 + 1 - 10 :=
  ⟨Nat.one_le_iff_ne_zero.mpr (by omega),
    (error_monitor_alert_per_threshold_error 10 300 10 "api" 0
      (Nat.one_le_iff_ne_zero.mpr (by omega))).1⟩

/-! ### ConnectionKeepAlive reconnection monitor (connection_keep_alive.py)

`_reconnection_monitor` wakes every 5 s; when disconnected it increments
the attempt counter and, while the counter is within
`max_reconnect_attempts`, calls `_establish_connection`; once the counter
exceeds the bound it emits `max_reconnects_reached` and breaks out of the
loop.  Inside `_establish_connection`, the counter reset
`self.current_reconnect_attempts = 0` runs right after the raw websocket
`connect()` succeeds and *before* `await self._send_handshake()`, which
can still raise: an attempt whose socket opens but whose handshake fails
zeroes the counter even though the call returns `False` and no
`reconnected` event is emitted.  Each wake of the loop is a tick carrying
the observed `is_connected` flag and the establishment outcome. -/

/-- The monitor's persistent state: the attempt counter
(`current_reconnect_attempts`) and whether the loop has exited. -/
structure KAState where
  attempts : ℕ
  stopped : Bool
  deriving DecidableEq, Repr

/-- Events emitted by the monitor. -/
inductive KAEvent
  | reconnected
  | maxReached (attempts : ℕ)
  deriving DecidableEq, Repr

/-- Outcome of one `_establish_connection` call: no candidate URL opened
a socket (counter untouched, returns `False`); some URL opened a socket —
which already reset the counter to zero — but every candidate ultimately
failed (e.g. in `_send_handshake`, returns `False`); or a candidate
connected and completed the handshake (counter zero, returns `True`). -/
inductive KAEst
  | fullFail
  | partialFail
  | success
  deriving DecidableEq, Repr

/-- One wake of the monitor loop: the connection flag it observes and
the outcome an attempted `_establish_connection` would have. -/
structure KATick where
  isConn : Bool
  est : KAEst
  deriving DecidableEq, Repr

/-- `self.max_reconnect_attempts = 10` (connection_keep_alive.py). -/
def kaMaxReconnectAttempts : ℕ := 10

/-- One iteration of `_reconnection_monitor`: returns the new state, the
events emitted, and the number of `_establish_connection` calls (0 or 1).
A successful establishment leaves the counter at zero (reset inside
`_establish_connection`) and the monitor emits `reconnected`; an
establishment that opened a socket but failed also leaves the counter at
zero but emits nothing; only an establishment that never opened a socket
keeps the incremented counter; a counter beyond the bound emits
`max_reconnects_reached` and stops the loop. -/
def kaStep (maxAtt : ℕ) (s : KAState) (t : KATick) : KAState × List KAEvent × ℕ :=
  if s.stopped then (s, [], 0)
  else if t.isConn then (s, [], 0)
  else
    let a := s.attempts + 1
    if a ≤ maxAtt then
      match t.est with
      | KAEst.success => ({ attempts := 0, stopped := false }, [KAEvent.reconnected], 1)
      | KAEst.partialFail => ({ attempts := 0, stopped := false }, [], 1)
      | KAEst.fullFail => ({ attempts := a, stopped := false }, [], 1)
    else ({ attempts := a, stopped := true }, [KAEvent.maxReached a], 0)

/-- Running the monitor over a sequence of wakes, accumulating emitted
events and `_establish_connection` calls. -/
def kaRun (maxAtt : ℕ) (s : KAState) : List KATick → KAState × List KAEvent × ℕ
  | [] => (s, [], 0)
  | t :: ts =>
      let r := kaStep maxAtt s t
      let rest := kaRun maxAtt r.1 ts
      (rest.1, r.2.1 ++ rest.2.1, r.2.2 + rest.2.2)

theorem kaRun_stopped (maxAtt : ℕ) (ticks : List KATick) (s : KAState)
    (hs : s.stopped = true) : kaRun maxAtt s ticks = (s, [], 0) := by
  induction ticks with
  | nil => rfl
  | cons t ts ih =>
      simp only [kaRun, kaStep, hs, if_true]
      rw [ih]
      simp

theorem kaRun_fail_bound (maxAtt : ℕ) :
    ∀ (ticks : List KATick), (∀ t ∈ ticks, t.est = KAEst.fullFail) →
    ∀ (s : KAState), s.stopped = false →
    (kaRun maxAtt s ticks).2.2 ≤ maxAtt - s.attempts := by
  intro ticks
  induction ticks with
  | nil => intro _ s _; simp [kaRun]
  | cons t ts ih =>
      intro hfail s hs
      have hts : ∀ t' ∈ ts, t'.est = KAEst.fullFail :=
        fun t' h => hfail t' (List.mem_cons_of_mem t h)
      have hft : t.est = KAEst.fullFail := hfail t (List.mem_cons_self t ts)
      simp only [kaRun]
      by_cases hc : t.isConn = true
      · have hstep : kaStep maxAtt s t = (s, [], 0) := by
          simp [kaStep, hs, hc]
        rw [hstep]
        simpa using ih hts s hs
      · simp only [Bool.not_eq_true] at hc
        by_cases ha : s.attempts + 1 ≤ maxAtt
        · have hstep : kaStep maxAtt s t =
              ({ attempts := s.attempts + 1, stopped := false }, [], 1) := by
            simp [kaStep, hs, hc, ha, hft]
          rw [hstep]
          have := ih hts { attempts := s.attempts + 1, stopped := false } rfl
          simp only at this ⊢
          omega
        · have hstep : kaStep maxAtt s t =
              ({ attempts := s.attempts + 1, stopped := true },
                [KAEvent.maxReached (s.attempts + 1)], 0) := by
            simp [kaStep, hs, hc, ha]
          rw [hstep]
          rw [kaRun_stopped maxAtt ts _ rfl]
          simp

/-- C6 counterexample: eleven disconnected wakes in which every
establishment attempt opens a socket — thereby resetting the counter to
zero inside `_establish_connection` — but then fails the handshake and
returns `False`.  The monitor performs 11 establishment calls, more than
`max_reconnect_attempts = 10`, with no intervening success (no
`reconnected` event is ever emitted), never emits the terminal event and
never stops — refuting the claimed at-most-`max_reconnect_attempts`
bound and the guaranteed eventual exhaustion stop. -/
theorem reconnection_attempts_unbounded_counterexample :
    (kaRun kaMaxReconnectAttempts { attempts := 0, stopped := false }
        (List.replicate 11 { isConn := false, est := KAEst.partialFail })).2.2 = 11 ∧
    kaMaxReconnectAttempts < 11 ∧
    (kaRun kaMaxReconnectAttempts { attempts := 0, stopped := false }
        (List.replicate 11 { isConn := false, est := KAEst.partialFail })).2.1 = [] ∧
    (kaRun kaMaxReconnectAttempts { attempts := 0, stopped := false }
        (List.replicate 11 { isConn := false, est := KAEst.partialFail })).1.stopped
      = false := by
  refine ⟨?_, ?_, ?_, ?_⟩ <;> decide

/-- C6 (amended): the reconnection monitor (with
`max_reconnect_attempts = 10`) (1) performs at most
`max_reconnect_attempts` `_establish_connection` calls over any run in
which no attempt opens a socket (its counter is then never reset);
(2) once stopped, it never runs again: no further events and no further
establishment calls over any sequence of wakes; (3) when the incremented
counter exceeds the bound, the wake emits the terminal
`max_reconnects_reached` event, makes no establishment call, and stops
the loop; (4) a successful reconnect emits `reconnected` and leaves the
counter at zero; but (5) an establishment attempt that opens a socket and
then fails (e.g. in the handshake) also resets the counter to zero while
emitting no event, so there is no bound on attempts without an
intervening successful reconnect. -/
theorem reconnection_monitor_bounded :
    (∀ (ticks : List KATick), (∀ t ∈ ticks, t.est = KAEst.fullFail) →
      (kaRun kaMaxReconnectAttempts { attempts := 0, stopped := false } ticks).2.2 ≤
        kaMaxReconnectAttempts) ∧
    (∀ (ticks : List KATick) (s : KAState), s.stopped = true →
      kaRun kaMaxReconnectAttempts s ticks = (s, [], 0)) ∧
    (∀ (s : KAState) (t : KATick), s.stopped = false → t.isConn = false →
      kaMaxReconnectAttempts < s.attempts + 1 →
      kaStep kaMaxReconnectAttempts s t =
        ({ attempts := s.attempts + 1, stopped := true },
          [KAEvent.maxReached (s.attempts + 1)], 0)) ∧
    (∀ (s : KAState) (t : KATick), s.stopped = false → t.isConn = false →
      s.attempts + 1 ≤ kaMaxReconnectAttempts → t.est = KAEst.success →
      kaStep kaMaxReconnectAttempts s t =
        ({ attempts := 0, stopped := false }, [KAEvent.reconnected], 1)) ∧
    (∀ (s : KAState) (t : KATick), s.stopped = false → t.isConn = false →
      s.attempts + 1 ≤ kaMaxReconnectAttempts → t.est = KAEst.partialFail →
      kaStep kaMaxReconnectAttempts s t =
        ({ attempts := 0, stopped := false }, [], 1)) := by
  refine ⟨?_, ?_, ?_, ?_, ?_⟩
  · intro ticks hfail
    simpa using kaRun_fail_bound kaMaxReconnectAttempts ticks hfail
      { attempts := 0, stopped := false } rfl
  · intro ticks s hs
    exact kaRun_stopped kaMaxReconnectAttempts ticks s hs
  · intro s t hs hc ha
    simp [kaStep, hs, hc, Nat.not_le.mpr ha]
  · intro s t hs hc ha hok
    simp [kaStep, hs, hc, ha, hok]
  · intro s t hs hc ha hpart
    simp [kaStep, hs, hc, ha, hpart]

/-- Witness for C6's amended theorem: a single disconnected wake whose
establishment never opens a socket performs at most the bounded number of
calls. -/
theorem reconnection_monitor_bounded_witness :
    (∀ t ∈ [({ isConn := false, est := KAEst.fullFail } : KATick)],
      t.est = KAEst.fullFail) ∧
    (kaRun kaMaxReconnectAttempts { attempts := 0, stopped := false }
      [{ isConn := false, est := KAEst.fullFail }]).2.2 ≤ kaMaxReconnectAttempts := by
  have hfail : ∀ t ∈ [({ isConn := false, est := KAEst.fullFail } : KATick)],
      t.est = KAEst.fullFail := by
    intro t ht
    rw [List.mem_singleton] at ht
    rw [ht]
  exact ⟨hfail,
    reconnection_monitor_bounded.1 [{ isConn := false, est := KAEst.fullFail }] hfail⟩

/-! ### get_balance (client.py)

`get_balance` raises when disconnected; with an absent or stale cached
balance it sends one `getBalance` frame and sleeps 1 s, during which
`_on_balance_updated` may store a pushed balance (`update`); it then
raises a domain error only when no balance is stored at all, and
otherwise returns whatever balance is stored. -/

/-- `Balance` (models.py). -/
structure Balance where
  balance : ℚ
  currency : String
  is_demo : Bool
  last_updated : ℕ
  deriving DecidableEq, Repr

/-- Outcome of `get_balance`: the two raised exceptions or a balance. -/
inductive BalanceOutcome
  | notConnected
  | noBalance
  | ok (b : Balance)
  deriving DecidableEq, Repr

/-- The staleness test `(datetime.now() - self._balance.last_updated).seconds > 60`
(client.py): `timedelta.seconds` is the seconds component of the age,
i.e. the age modulo 86400 for non-negative ages. -/
def balanceAgeSeconds (now lastUpdated : ℕ) : ℕ :=
  (now - lastUpdated) % 86400

/-- The refresh condition of `get_balance`:
`not self._balance or (...).seconds > 60`. -/
def needsRefresh (bal : Option Balance) (now : ℕ) : Bool :=
  match bal with
  | none => true
  | some b => decide (60 < balanceAgeSeconds now b.last_updated)

/-- `get_balance` (client.py): returns the outcome and the number of
`getBalance` frames sent.  `update` is the balance stored by the update
handler during the 1 s wait, when the server pushes one. -/
def get_balance (connected : Bool) (bal : Option Balance) (now : ℕ)
    (update : Option Balance) : BalanceOutcome × ℕ :=
  if connected = false then (BalanceOutcome.notConnected, 0)
  else
    let refreshed := needsRefresh bal now
    let sent : ℕ := if refreshed then 1 else 0
    let stored : Option Balance :=
      if refreshed then
        match update with
        | some b => some b
        | none => bal
      else bal
    match stored with
    | none => (BalanceOutcome.noBalance, sent)
    | some b => (BalanceOutcome.ok b, sent)

/-- C7 counterexample: connected, with a cached balance last updated
120 s ago (stale per the claim's 60 s bound) and no update arriving
during the 1 s wait, `get_balance` returns that same stale balance after
sending the refresh frame — contradicting the claim that it "never
returns a stale-beyond-refresh value" (the claim allows only a parsed
fresh balance or a domain error). -/
theorem get_balance_returns_stale_counterexample :
    get_balance true
        (some { balance := 100, currency := "USD", is_demo := true, last_updated := 0 })
        120 none =
      (BalanceOutcome.ok
        { balance := 100, currency := "USD", is_demo := true, last_updated := 0 }, 1) ∧
    60 < 120 - 0 := by
  constructor
  · decide
  · decide

/-- C7 (amended): `get_balance` while disconnected fails with the
not-connected error and sends nothing; while connected it sends exactly
one refresh frame when the balance is absent or its age's seconds
component exceeds 60 and none otherwise; a returned balance is never
fabricated — it is the pushed update or the previously cached balance;
the domain error occurs exactly when no balance was cached and no update
arrived; a fresh cached balance is returned without any frame; and when
the cached balance is stale but no update arrives, the stale cached
balance itself is returned (rather than an error). -/
theorem get_balance_behavior (bal : Option Balance) (now : ℕ)
    (update : Option Balance) :
    (get_balance false bal now update = (BalanceOutcome.notConnected, 0)) ∧
    ((get_balance true bal now update).2 = if needsRefresh bal now then 1 else 0) ∧
    (∀ b, (get_balance true bal now update).1 = BalanceOutcome.ok b →
      update = some b ∨ bal = some b) ∧
    (bal = none → update = none →
      get_balance true bal now update = (BalanceOutcome.noBalance, 1)) ∧
    (∀ b, bal = some b → needsRefresh bal now = false →
      get_balance true bal now update = (BalanceOutcome.ok b, 0)) ∧
    (∀ b, bal = some b → needsRefresh bal now = true → update = none →
      (get_balance true bal now update).1 = BalanceOutcome.ok b) := by
  refine ⟨rfl, ?_, ?_, ?_, ?_, ?_⟩
  · by_cases hr : needsRefresh bal now = true
    · cases update with
      | none =>
          cases bal with
          | none => simp [get_balance, hr]
          | some b => simp [get_balance, hr]
      | some b => simp [get_balance, hr]
    · simp only [Bool.not_eq_true] at hr
      cases bal with
      | none => simp [needsRefresh] at hr
      | some b => simp [get_balance, hr]
  · intro b hok
    by_cases hr : needsRefresh bal now = true
    · cases update with
      | some u =>
          left
          simp [get_balance, hr] at hok
          rw [hok]
      | none =>
          right
          cases bal with
          | none => simp [get_balance, hr] at hok
          | some c =>
              simp [get_balance, hr] at hok
              rw [hok]
    · simp only [Bool.not_eq_true] at hr
      right
      cases bal with
      | none => simp [needsRefresh] at hr
      | some c =>
          simp [get_balance, hr] at hok
          rw [hok]
  · intro hb hu
    subst hb
    subst hu
    simp [get_balance, needsRefresh]
  · intro b hb hr
    subst hb
    simp [get_balance, hr]
  · intro b hb hr hu
    subst hb
    subst hu
    simp [get_balance, hr]

/-- Witness for C7's amended theorem: a fresh cached balance is returned
without sending a frame. -/
theorem get_balance_behavior_witness :
    ((some { balance := 50, currency := "USD", is_demo := true, last_updated := 100 }
        : Option Balance) =
      some { balance := 50, currency := "USD", is_demo := true, last_updated := 100 }) ∧
    (needsRefresh
        (some { balance := 50, currency := "USD", is_demo := true, last_updated := 100 })
        110 = false) ∧
    get_balance true
        (some { balance := 50, currency := "USD", is_demo := true, last_updated := 100 })
        110 none =
      (BalanceOutcome.ok
        { balance := 50, currency := "USD", is_demo := true, last_updated := 100 }, 0) :=
  ⟨rfl, by decide,
    (get_balance_behavior
        (some { balance := 50, currency := "USD", is_demo := true, last_updated := 100 })
        110 none).2.2.2.2.1
      { balance := 50, currency := "USD", is_demo := true, last_updated := 100 }
      rfl (by decide)⟩

/-! ### Candle model and candle parsers (models.py, client.py)

The pydantic `Candle` model validates its fields in declaration order;
`open` is a Lean keyword, so the field is named `open_` here.  Prices and
timestamps are rationals. -/

/-- `Candle` (models.py), the raw record. -/
structure Candle where
  timestamp : ℚ
  open_ : ℚ
  high : ℚ
  low : ℚ
  close : ℚ
  volume : ℚ
  asset : String
  timeframe : ℕ
  deriving DecidableEq, Repr

/-- The pydantic `Candle` constructor with its validators (models.py).
`high` is declared before `low`, so when the `high` validator runs `low`
is not yet among the validated values and its check is skipped; the `low`
validator then rejects `low > high`.  Net effect: construction fails
exactly when `high < low`. -/
def mkCandle (timestamp open_ high low close volume : ℚ) (asset : String)
    (timeframe : ℕ) : Option Candle :=
  if low > high then none
  else some { timestamp := timestamp, open_ := open_, high := high, low := low,
              close := close, volume := volume, asset := asset, timeframe := timeframe }

/-- One row of `_parse_candles_data` (client.py).  Server rows are
`[timestamp, open, low, high, close, volume?]`; the code reads indices 2
and 3 and takes their max as the high and their min as the low before
constructing the Candle; rows with fewer than 5 entries are skipped. -/
def parseCandleRow (asset : String) (tf : ℕ) (row : List ℚ) : Option Candle :=
  if 5 ≤ row.length then
    mkCandle (row.getD 0 0) (row.getD 1 0)
      (max (row.getD 2 0) (row.getD 3 0)) (min (row.getD 2 0) (row.getD 3 0))
      (row.getD 4 0) (if 5 < row.length then row.getD 5 0 else 0) asset tf
  else none

/-- `_parse_candles_data` (client.py) over a whole response. -/
def parseCandlesData (asset : String) (tf : ℕ) (rows : List (List ℚ)) : List Candle :=
  rows.filterMap (parseCandleRow asset tf)

/-- An item of a stream update's candle payload
(client.py, `_parse_stream_candles`): either a dict with named fields or
a positional row. -/
inductive StreamItem
  | dictItem (time open_ high low close volume : ℚ)
  | listItem (row : List ℚ)
  deriving DecidableEq, Repr

/-- The item loop of `_parse_stream_candles` (client.py): dict items use
the named fields, positional rows of length ≥ 6 use indices
`[0]=timestamp, [1]=open, [3]=high, [4]=low, [2]=close, [5]=volume`;
shorter rows are skipped.  A pydantic validation failure raises inside
the `try` that wraps the whole loop, so the candles accumulated so far
are returned and the rest of the payload is dropped. -/
def streamLoop (asset : String) (tf : ℕ) : List StreamItem → List Candle
  | [] => []
  | StreamItem.dictItem t o h l c v :: rest =>
      match mkCandle t o h l c v asset tf with
      | some cd => cd :: streamLoop asset tf rest
      | none => []
  | StreamItem.listItem row :: rest =>
      if 6 ≤ row.length then
        match mkCandle (row.getD 0 0) (row.getD 1 0) (row.getD 3 0) (row.getD 4 0)
            (row.getD 2 0) (row.getD 5 0) asset tf with
        | some cd => cd :: streamLoop asset tf rest
        | none => []
      else streamLoop asset tf rest

/-- `_parse_stream_candles` (client.py): the item loop followed by the
final sort by timestamp. -/
def parseStreamCandles (asset : String) (tf : ℕ) (items : List StreamItem) :
    List Candle :=
  (streamLoop asset tf items).mergeSort (fun a b => decide (a.timestamp ≤ b.timestamp))

theorem mkCandle_low_le_high {t o h l c v : ℚ} {asset : String} {tf : ℕ}
    {cd : Candle} (hmk : mkCandle t o h l c v asset tf = some cd) :
    cd.low ≤ cd.high := by
  unfold mkCandle at hmk
  split at hmk
  · cases hmk
  · next hle =>
      cases hmk
      exact not_lt.mp hle

theorem streamLoop_low_le_high (asset : String) (tf : ℕ) :
    ∀ (items : List StreamItem), ∀ cd ∈ streamLoop asset tf items, cd.low ≤ cd.high := by
  intro items
  induction items with
  | nil => intro cd h; simp [streamLoop] at h
  | cons item rest ih =>
      intro cd h
      cases item with
      | dictItem t o hi lo c v =>
          simp only [streamLoop] at h
          split at h
          · next cd' hmk =>
              rcases List.mem_cons.mp h with hEq | hmem
              · subst hEq
                exact mkCandle_low_le_high hmk
              · exact ih cd hmem
          · simp at h
      | listItem row =>
          simp only [streamLoop] at h
          split at h
          · split at h
            · next cd' hmk =>
                rcases List.mem_cons.mp h with hEq | hmem
                · subst hEq
                  exact mkCandle_low_le_high hmk
                · exact ih cd hmem
            · simp at h
          · exact ih cd h

/-- C10: every Candle the client's candle parsers can produce satisfies
`high ≥ low`.  (1) a successfully validated `Candle` has `low ≤ high`;
(2) the model rejects any construction with `high < low`; (3) the
historical parser builds each candle with `high = max` and `low = min` of
the two raw price fields; (4) every candle in a historical-parse result
and (5) every candle in a stream-parse result satisfies `low ≤ high`, so
no inverted candle can reach a `get_candles` caller. -/
theorem candle_high_ge_low :
    (∀ (t o h l c v : ℚ) (asset : String) (tf : ℕ) (cd : Candle),
      mkCandle t o h l c v asset tf = some cd → cd.low ≤ cd.high) ∧
    (∀ (t o h l c v : ℚ) (asset : String) (tf : ℕ),
      h < l → mkCandle t o h l c v asset tf = none) ∧
    (∀ (asset : String) (tf : ℕ) (row : List ℚ) (cd : Candle),
      parseCandleRow asset tf row = some cd →
      cd.high = max (row.getD 2 0) (row.getD 3 0) ∧
      cd.low = min (row.getD 2 0) (row.getD 3 0)) ∧
    (∀ (asset : String) (tf : ℕ) (rows : List (List ℚ)),
      ∀ cd ∈ parseCandlesData asset tf rows, cd.low ≤ cd.high) ∧
    (∀ (asset : String) (tf : ℕ) (items : List StreamItem),
      ∀ cd ∈ parseStreamCandles asset tf items, cd.low ≤ cd.high) := by
  refine ⟨?_, ?_, ?_, ?_, ?_⟩
  · intro t o h l c v asset tf cd hmk
    exact mkCandle_low_le_high hmk
  · intro t o h l c v asset tf hlt
    unfold mkCandle
    rw [if_pos hlt]
  · intro asset tf row cd hrow
    unfold parseCandleRow at hrow
    split at hrow
    · unfold mkCandle at hrow
      split at hrow
      · cases hrow
      · cases hrow
        exact ⟨rfl, rfl⟩
    · cases hrow
  · intro asset tf rows cd hmem
    unfold parseCandlesData at hmem
    obtain ⟨row, _, hrow⟩ := List.mem_filterMap.mp hmem
    unfold parseCandleRow at hrow
    split at hrow
    · exact mkCandle_low_le_high hrow
    · cases hrow
  · intro asset tf items cd hmem
    unfold parseStreamCandles at hmem
    have hmem' : cd ∈ streamLoop asset tf items :=
      (List.mergeSort_perm (streamLoop asset tf items) _).mem_iff.mp hmem
    exact streamLoop_low_le_high asset tf items cd hmem'

/-- Witness for C10: a concrete row with the server's swapped low/high
fields parses to a candle with `high ≥ low`. -/
theorem candle_high_ge_low_witness :
    (parseCandleRow "EURUSD_otc" 60 [0, 3, 5, 2, 4] =
      some { timestamp := 0, open_ := 3, high := 5, low := 2, close := 4,
             volume := 0, asset := "EURUSD_otc", timeframe := 60 }) ∧
    ({ timestamp := 0, open_ := 3, high := 5, low := 2, close := 4,
       volume := 0, asset := "EURUSD_otc", timeframe := 60 } : Candle).low ≤
      ({ timestamp := 0, open_ := 3, high := 5, low := 2, close := 4,
         volume := 0, asset := "EURUSD_otc", timeframe := 60 } : Candle).high := by
  have hrow : parseCandleRow "EURUSD_otc" 60 [0, 3, 5, 2, 4] =
      some { timestamp := 0, open_ := 3, high := 5, low := 2, close := 4,
             volume := 0, asset := "EURUSD_otc", timeframe := 60 } := by
    decide
  exact ⟨hrow,
    candle_high_ge_low.2.2.2.1 "EURUSD_otc" 60 [[0, 3, 5, 2, 4]] _
      (by rw [parseCandlesData, List.filterMap_cons, hrow]; exact List.mem_singleton.mpr rfl)⟩

/-! ### Candle request correlation (client.py)

`_request_candles` registers a future under the key `f"{asset}_{period}"`
and waits up to 10 s for it; a `TimeoutError` is caught and `[]`
returned.  Three handlers can touch the pending request:
the candles branch of `_on_json_data` resolves it only on an exact
asset/period match; `_on_candles_received` (fired for every
`loadHistoryPeriod` push, whatever asset it refers to) resolves the first
pending future with the push's rows parsed under the *request's* asset
and timeframe; `_handle_candles_stream` resolves a matching request when
its parse is non-empty and deletes the request entry without resolving it
when the parse is empty, after which no later push can resolve it. -/

/-- A candle-bearing push, with the asset and period it refers to. -/
inductive CandlePush
  | jsonCandles (asset : String) (period : ℕ) (rows : List (List ℚ))
  | historyPeriod (asset : String) (period : ℕ) (rows : List (List ℚ))
  | streamUpdate (asset : String) (period : ℕ) (items : List StreamItem)
  deriving DecidableEq, Repr

/-- State of the single pending candle request. -/
inductive CandleReqState
  | pending
  | resolved (cs : List Candle)
  | cancelled
  deriving DecidableEq, Repr

/-- The push refers to the same asset and timeframe as the request. -/
def pushMatches (A : String) (T : ℕ) : CandlePush → Prop
  | CandlePush.jsonCandles a per _ => a = A ∧ per = T
  | CandlePush.historyPeriod a per _ => a = A ∧ per = T
  | CandlePush.streamUpdate a per _ => a = A ∧ per = T

/-- Effect of one push on the pending request for `(A, T)`: the
`_on_json_data` candles branch requires an exact key match; the
`candles_received` handler resolves the pending future regardless of the
push's asset, parsing the rows under the request's own asset and
timeframe (recovered from the request key); the stream handler requires a
key match, resolves only a non-empty parse, and otherwise deletes the
request entry.  A resolved or cancelled request is never changed again. -/
def candleReqStep (A : String) (T : ℕ) (st : CandleReqState) (p : CandlePush) :
    CandleReqState :=
  match st with
  | CandleReqState.resolved cs => CandleReqState.resolved cs
  | CandleReqState.cancelled => CandleReqState.cancelled
  | CandleReqState.pending =>
      match p with
      | CandlePush.jsonCandles a per rows =>
          if a = A ∧ per = T then CandleReqState.resolved (parseCandlesData a per rows)
          else CandleReqState.pending
      | CandlePush.historyPeriod _ _ rows =>
          CandleReqState.resolved (parseCandlesData A T rows)
      | CandlePush.streamUpdate a per items =>
          if a = A ∧ per = T then
            if (parseStreamCandles a per items).isEmpty then CandleReqState.cancelled
            else CandleReqState.resolved (parseStreamCandles a per items)
          else CandleReqState.pending

/-- `_request_candles` (client.py): the value `get_candles` receives for
a request `(A, T)` given the pushes arriving before the 10 s deadline —
the resolved candles, or `[]` when the future never resolves (the
`TimeoutError` is caught, never surfaced). -/
def requestCandlesResult (A : String) (T : ℕ) (pushes : List CandlePush) :
    List Candle :=
  match pushes.foldl (candleReqStep A T) CandleReqState.pending with
  | CandleReqState.resolved cs => cs
  | _ => []

/-- A push that leaves a pending request for `(A, T)` pending: a
non-matching `json_data` or stream push.  (A `loadHistoryPeriod` push
always resolves the pending request, matching or not.) -/
def resolvesNothing (A : String) (T : ℕ) : CandlePush → Prop
  | CandlePush.jsonCandles a per _ => ¬(a = A ∧ per = T)
  | CandlePush.historyPeriod _ _ _ => False
  | CandlePush.streamUpdate a per _ => ¬(a = A ∧ per = T)

/-- C5 counterexample: a single `loadHistoryPeriod` push for a different
asset and timeframe — so no matching push ever arrives — resolves the
pending request with that push's rows parsed under the request's key,
and `get_candles` returns a non-empty list instead of the empty list the
claim promises for the no-matching-push case. -/
theorem candle_request_nonmatching_resolution_counterexample :
    (¬ pushMatches "EURUSD_otc" 60
      (CandlePush.historyPeriod "AUDCAD_otc" 30 [[0, 1, 1, 2, 2]])) ∧
    requestCandlesResult "EURUSD_otc" 60
      [CandlePush.historyPeriod "AUDCAD_otc" 30 [[0, 1, 1, 2, 2]]] ≠ [] := by
  constructor
  · intro h
    exact absurd h.1 (by decide)
  · decide

/-- C5 (amended): if no push that the handlers accept for the request
arrives before the 10-second deadline — no `json_data` or stream push
matching the request's asset and timeframe, and no `loadHistoryPeriod`
push of any asset at all (such a push resolves the request regardless of
matching) — the request resolves to the empty candle list and
`get_candles` returns it; the timeout is absorbed and never surfaced as
an exception (the modelled call is a total function into candle lists). -/
theorem candle_request_timeout_empty (A : String) (T : ℕ)
    (pushes : List CandlePush) (h : ∀ p ∈ pushes, resolvesNothing A T p) :
    requestCandlesResult A T pushes = [] := by
  have hfold : ∀ (ps : List CandlePush), (∀ p ∈ ps, resolvesNothing A T p) →
      ps.foldl (candleReqStep A T) CandleReqState.pending = CandleReqState.pending := by
    intro ps
    induction ps with
    | nil => intro _; rfl
    | cons p ps ih =>
        intro hps
        have hp : resolvesNothing A T p := hps p (List.mem_cons_self p ps)
        have hstep : candleReqStep A T CandleReqState.pending p =
            CandleReqState.pending := by
          cases p with
          | jsonCandles a per rows =>
              simp only [candleReqStep]
              rw [if_neg hp]
          | historyPeriod a per rows => exact absurd hp (fun f => f)
          | streamUpdate a per items =>
              simp only [candleReqStep]
              rw [if_neg hp]
        rw [List.foldl_cons, hstep]
        exact ih (fun q hq => hps q (List.mem_cons_of_mem p hq))
  rw [requestCandlesResult, hfold pushes h]

/-- Witness for C5's amended theorem: a single non-matching `json_data`
push leaves the request to time out into the empty list. -/
theorem candle_request_timeout_empty_witness :
    (∀ p ∈ [CandlePush.jsonCandles "AUDCAD_otc" 30 [[0, 1, 1, 2, 2]]],
      resolvesNothing "EURUSD_otc" 60 p) ∧
    requestCandlesResult "EURUSD_otc" 60
      [CandlePush.jsonCandles "AUDCAD_otc" 30 [[0, 1, 1, 2, 2]]] = [] := by
  have h : ∀ p ∈ [CandlePush.jsonCandles "AUDCAD_otc" 30 [[0, 1, 1, 2, 2]]],
      resolvesNothing "EURUSD_otc" 60 p := by
    intro p hp
    rw [List.mem_singleton] at hp
    subst hp
    intro hc
    exact absurd hc.1 (by decide)
  exact ⟨h, candle_request_timeout_empty "EURUSD_otc" 60 _ h⟩

end PocketOption
